import Mathlib

/-!
Verification of the connection-filter plugin core: the type
classification/deduplication algorithm and the runtime predicate-attachment
protocol, embedded shallowly from the TypeScript source.
-/

namespace ConnFilter

/-- A `PgTypeCodec` (TypeDescriptor): identity plus shape flags plus the
optional array/range/domain wrappers, mirroring the fields the source
inspects: `name`, identity with `TYPES.void` (`isVoid`), truthiness of
`columns` (`hasColumns`), `isAnonymous`, `polymorphism` (`isPolymorphic`),
`isEnumCodec codec` (`enumLike`), identity with `TYPES.json` (`isJson`),
membership in the `actualStringCodecs` list (`isTrueString`), and
`arrayOfCodec` / `rangeOfCodec` / `domainOfCodec`. -/
inductive Codec : Type where
  | mk
    (name : String)
    (isVoid hasColumns isAnonymous isPolymorphic enumLike isJson isTrueString : Bool)
    (arrayOf rangeOf domainOf : Option Codec)

def Codec.name : Codec → String
  | .mk n _ _ _ _ _ _ _ _ _ _ => n

def Codec.isVoid : Codec → Bool
  | .mk _ v _ _ _ _ _ _ _ _ _ => v

def Codec.hasColumns : Codec → Bool
  | .mk _ _ c _ _ _ _ _ _ _ _ => c

def Codec.isAnonymous : Codec → Bool
  | .mk _ _ _ a _ _ _ _ _ _ _ => a

def Codec.isPolymorphic : Codec → Bool
  | .mk _ _ _ _ p _ _ _ _ _ _ => p

def Codec.enumLike : Codec → Bool
  | .mk _ _ _ _ _ e _ _ _ _ _ => e

def Codec.isJson : Codec → Bool
  | .mk _ _ _ _ _ _ j _ _ _ _ => j

def Codec.isTrueString : Codec → Bool
  | .mk _ _ _ _ _ _ _ s _ _ _ => s

def Codec.arrayOf : Codec → Option Codec
  | .mk _ _ _ _ _ _ _ _ a _ _ => a

def Codec.rangeOf : Codec → Option Codec
  | .mk _ _ _ _ _ _ _ _ _ r _ => r

def Codec.domainOf : Codec → Option Codec
  | .mk _ _ _ _ _ _ _ _ _ _ d => d

/-- `isSuitableForFiltering` from the source:
`codec !== TYPES.void && !codec.columns && !codec.isAnonymous &&
!codec.arrayOfCodec && !codec.polymorphism &&
(!codec.domainOfCodec || isSuitableForFiltering(codec.domainOfCodec))`. -/
def isSuitableForFiltering : Codec → Bool
  | .mk _ isVoid cols anon poly _ _ _ arr _ dom =>
      !isVoid && !cols && !anon && !arr.isSome && !poly &&
      (match dom with
       | none => true
       | some d => isSuitableForFiltering d)

/-- Modelled from the spec: the external collaborator `getInnerCodec`
(from the type catalog) unwraps domain/array/range layers to obtain the
innermost simple descriptor. -/
def getInnerCodec : Codec → Codec
  | .mk n v c a p e j s arr rng dom =>
      match dom with
      | some d => getInnerCodec d
      | none =>
        match arr with
        | some ac => getInnerCodec ac
        | none =>
          match rng with
          | some rc => getInnerCodec rc
          | none => .mk n v c a p e j s arr rng dom

/-- `OperatorsCategory` from `./interfaces`. -/
inductive OperatorsCategory : Type where
  | array | range | enumCat | domain | scalar
deriving DecidableEq, Repr

/-- `FilterDigest`: the value returned by `connectionFilterOperatorsDigest`. -/
structure Digest : Type where
  isList : Bool
  operatorsTypeName : String
  relatedTypeName : String
  inputTypeName : String
  rangeElementInputTypeName : Option String
  domainBaseTypeName : Option String
deriving DecidableEq, Repr

/-- The build environment the hooks read: type-name resolution
(`getGraphQLTypeNameByPgCodec` in both directions), `getTypeMetaByName`
(presence only), `getTypeByName` (presence only), the inflection functions,
and the recognized configuration options. -/
structure BuildEnv : Type where
  typeNameOutput : Codec → Option String
  typeNameInput : Codec → Option String
  typeMetaExists : String → Bool
  typeIsRegistered : String → Bool
  filterFieldType : String → String
  filterFieldListType : String → String
  filterType : String → String
  allowedFieldTypes : Option (List String)
  arraysEnabled : Bool
  setofFunctionsEnabled : Bool

/-- `build.connectionFilterOperatorsDigest` from the source: the
FilterabilityClassifier. Returns `none` for "not filterable". -/
def connectionFilterOperatorsDigest (b : BuildEnv) (codec : Codec) : Option Digest :=
  if !isSuitableForFiltering codec then
    none
  else
    let pgSimpleCodec := getInnerCodec codec
    if pgSimpleCodec.isPolymorphic || pgSimpleCodec.hasColumns ||
        pgSimpleCodec.isAnonymous then
      none
    else if pgSimpleCodec.isJson then
      none
    else
      let itemCodec := codec.arrayOf.getD codec
      match b.typeNameOutput itemCodec with
      | none => none
      | some fieldTypeName =>
        if !b.typeMetaExists fieldTypeName then none
        else
          match b.typeNameInput itemCodec with
          | none => none
          | some fieldInputTypeName =>
            if !b.typeMetaExists fieldInputTypeName then none
            else if fieldInputTypeName = "String" && !pgSimpleCodec.isTrueString then
              none
            else if (match b.allowedFieldTypes with
                     | some allowed => !allowed.contains fieldTypeName
                     | none => false) then
              none
            else
              let category : OperatorsCategory :=
                if codec.arrayOf.isSome then .array
                else if codec.rangeOf.isSome then .range
                else if codec.enumLike then .enumCat
                else if codec.domainOf.isSome then .domain
                else .scalar
              if category = .array && !b.arraysEnabled then none
              else
                let rangeElementInputTypeName : Option String :=
                  match codec.rangeOf with
                  | some rc => b.typeNameInput rc
                  | none => none
                let domainBaseTypeName : Option String :=
                  match codec.domainOf with
                  | some dc => b.typeNameOutput dc
                  | none => none
                let listType : Bool :=
                  codec.arrayOf.isSome ||
                    (match codec.rangeOf with
                     | some rc => rc.arrayOf.isSome
                     | none => false)
                let operatorsTypeName :=
                  if listType then b.filterFieldListType fieldTypeName
                  else b.filterFieldType fieldTypeName
                some
                  { isList := listType
                    operatorsTypeName
                    relatedTypeName := fieldTypeName
                    inputTypeName := fieldInputTypeName
                    rangeElementInputTypeName
                    domainBaseTypeName }

/-! ## OperatorGroupRegistry (`codecsByFilterTypeName` in the `init` hook) -/

/-- One bucket of `codecsByFilterTypeName`: the representative digest
attributes plus the member codec list. -/
structure FilterGroup : Type where
  isList : Bool
  relatedTypeName : String
  pgCodecs : List Codec
  inputTypeName : String
  rangeElementInputTypeName : Option String
  domainBaseTypeName : Option String

/-- JavaScript template-literal rendering of a boolean. -/
def showBoolVal : Bool → String
  | true => "true"
  | false => "false"

/-- JavaScript template-literal rendering of a `string | null` value. -/
def showOptVal : Option String → String
  | none => "null"
  | some s => s

/-- `array.join(", ")` over the member codec names. -/
def joinComma : List String → String
  | [] => ""
  | [s] => s
  | s :: rest => s ++ ", " ++ joinComma rest

/-- The error message thrown on a checked-attribute mismatch, exactly as the
source interpolates it. -/
def mismatchMessage (key existingNames oldVal newName newVal : String) : String :=
  key ++ " mismatch: existing codecs (" ++ existingNames ++ ") had " ++ key ++
    " = " ++ oldVal ++ ", but " ++ newName ++ " instead has " ++ key ++ " = " ++
    newVal

/-- Association-list lookup standing for `codecsByFilterTypeName[name]`. -/
def lookupGroup (m : List (String × FilterGroup)) (k : String) : Option FilterGroup :=
  match m with
  | [] => none
  | (k₀, g) :: rest => if k₀ = k then some g else lookupGroup rest k

/-- Association-list update standing for `codecsByFilterTypeName[name] = g`. -/
def setGroup (m : List (String × FilterGroup)) (k : String) (g : FilterGroup) :
    List (String × FilterGroup) :=
  match m with
  | [] => [(k, g)]
  | (k₀, g₀) :: rest =>
      if k₀ = k then (k₀, g) :: rest else (k₀, g₀) :: setGroup rest k g

/-- One iteration of the registry loop: a codec with digest `d` is inserted
into `codecsByFilterTypeName`. First member of a bucket creates the group
from the digest; a subsequent member is compared on the four checked
attributes (`isList`, `relatedTypeName`, `inputTypeName`,
`rangeElementInputTypeName`) in the source order, the loop body throwing the
interpolated message on the first mismatch, and appended to `pgCodecs` on
full match (`domainBaseTypeName` is not compared). -/
def registryInsert (m : List (String × FilterGroup)) (codec : Codec) (d : Digest) :
    Except String (List (String × FilterGroup)) :=
  match lookupGroup m d.operatorsTypeName with
  | none =>
      .ok (setGroup m d.operatorsTypeName
        { isList := d.isList
          relatedTypeName := d.relatedTypeName
          pgCodecs := [codec]
          inputTypeName := d.inputTypeName
          rangeElementInputTypeName := d.rangeElementInputTypeName
          domainBaseTypeName := d.domainBaseTypeName })
  | some g =>
      let names := joinComma (g.pgCodecs.map Codec.name)
      if d.isList ≠ g.isList then
        .error (mismatchMessage "isList" names (showBoolVal g.isList) codec.name
          (showBoolVal d.isList))
      else if d.relatedTypeName ≠ g.relatedTypeName then
        .error (mismatchMessage "relatedTypeName" names g.relatedTypeName
          codec.name d.relatedTypeName)
      else if d.inputTypeName ≠ g.inputTypeName then
        .error (mismatchMessage "inputTypeName" names g.inputTypeName codec.name
          d.inputTypeName)
      else if d.rangeElementInputTypeName ≠ g.rangeElementInputTypeName then
        .error (mismatchMessage "rangeElementInputTypeName" names
          (showOptVal g.rangeElementInputTypeName) codec.name
          (showOptVal d.rangeElementInputTypeName))
      else
        .ok (setGroup m d.operatorsTypeName
          { g with pgCodecs := g.pgCodecs ++ [codec] })

/-- The registry pass over `build.allPgCodecs`: classify each codec, skip
the unfilterable, insert the rest bucket-by-bucket. -/
def codecsByFilterTypeName (b : BuildEnv) (codecs : List Codec) :
    Except String (List (String × FilterGroup)) :=
  codecs.foldlM
    (fun m codec =>
      match connectionFilterOperatorsDigest b codec with
      | none => .ok m
      | some d => registryInsert m codec d)
    []

/-- The tag-and-description payload `registerInputObjectType` receives for
one shared operator input type. -/
structure OperatorTypeRegistration : Type where
  typeName : String
  pgCodecs : List Codec
  inputTypeName : String
  rangeElementInputTypeName : Option String
  domainBaseTypeName : Option String
  description : String

/-- The registration loop over `Object.entries(codecsByFilterTypeName)`. -/
def registerOperatorTypes (m : List (String × FilterGroup)) :
    List OperatorTypeRegistration :=
  m.map fun entry =>
    { typeName := entry.1
      pgCodecs := entry.2.pgCodecs
      inputTypeName := entry.2.inputTypeName
      rangeElementInputTypeName := entry.2.rangeElementInputTypeName
      domainBaseTypeName := entry.2.domainBaseTypeName
      description := "A filter to be used against " ++ entry.2.relatedTypeName ++
        (if entry.2.isList then " List" else "") ++
        " fields. All fields are combined with a logical ‘and.’" }

/-! ## `escapeLikeWildcards` -/

/-- A JavaScript argument value as `escapeLikeWildcards` type-checks it:
either a string or some non-string value. -/
inductive JsValue : Type where
  | str (s : String)
  | nonString (tag : String)

/-- `input.split(sep).join(repl)` for a single-character separator:
replace every occurrence of `sep` by `repl`. -/
def splitJoin (sep : Char) (repl : List Char) : List Char → List Char
  | [] => []
  | c :: cs => (if c = sep then repl else [c]) ++ splitJoin sep repl cs

/-- `build.escapeLikeWildcards` from the source: throws on non-string input,
otherwise `input.split("%").join("\\%").split("_").join("\\_")`. -/
def escapeLikeWildcards : JsValue → Except String String
  | .nonString _ => .error "Non-string input was provided to escapeLikeWildcards"
  | .str s =>
      .ok ⟨splitJoin '_' ['\\', '_'] (splitJoin '%' ['\\', '%'] s.data)⟩

/-! ## ColumnFilterFieldFactory apply protocol (`applyPlan` in
`PgConnectionArgFilterColumnsPlugin.ts`) -/

/-- A `PgTypeColumn` as the apply protocol stores it: it carries the
column's codec (TypeDescriptor). -/
structure Column : Type where
  codec : Codec

/-- `colSpec = { columnName, column }` from the source: the value assigned
to the metadata slot. -/
structure ColSpec : Type where
  columnName : String
  column : Column

/-- The raw argument-value abstraction (`fieldArgs.getRaw()`): whether the
step object exposes an `evalIsEmpty` member, what that member returns when
present, and what `evalIs(null)` returns. -/
structure RawArg : Type where
  hasEvalIsEmpty : Bool
  evalIsEmpty : Bool
  evalIsNull : Bool

/-- The thrown error object: `Object.assign(new Error(message), {...})`.
A fresh `Error` carries no safe-to-surface marker and the source assigns an
empty extension object (the marking is left as a TODO comment), so
`isSafeToSurface` is `false`. -/
structure ThrownError : Type where
  message : String
  isSafeToSurface : Bool
deriving DecidableEq, Repr

/-- The error thrown for a structurally empty argument object. -/
def emptyFilterObjectError : ThrownError :=
  { message := "Empty objects are forbidden in filter argument input."
    isSafeToSurface := false }

/-- The error thrown for a literal-null argument. -/
def nullFilterLiteralError : ThrownError :=
  { message := "Null literals are forbidden in filter argument input."
    isSafeToSurface := false }

/-- The PredicateTarget (`$where` step): its `extensions.pgFilterColumn`
metadata slot, plus a trace of delegations — each `fieldArgs.apply($where)`
records the slot value observed at the moment operator sub-fields resolve. -/
structure WhereState : Type where
  pgFilterColumn : Option ColSpec
  appliedWith : List (Option ColSpec)

/-- `fieldArgs.apply($where)`: the argument value resolves its operator
sub-fields against the target, observing the metadata slot as it stands. -/
def fieldArgsApply (st : WhereState) : WhereState :=
  { st with appliedWith := st.appliedWith ++ [st.pgFilterColumn] }

/-- `applyPlan` from the source, as a state transformer on the
PredicateTarget paired with the optionally thrown error: check the
empty-object guard (only when the raw value exposes `evalIsEmpty`), then
the null-literal guard, then set `extensions.pgFilterColumn` to the column
spec and delegate via `fieldArgs.apply`. -/
def applyPlan (allowEmptyObjectInput allowNullInput : Bool) (colSpec : ColSpec)
    (raw : RawArg) (st : WhereState) : WhereState × Option ThrownError :=
  if !allowEmptyObjectInput && raw.hasEvalIsEmpty && raw.evalIsEmpty then
    (st, some emptyFilterObjectError)
  else if !allowNullInput && raw.evalIsNull then
    (st, some nullFilterLiteralError)
  else
    let st₁ := { st with pgFilterColumn := some colSpec }
    (fieldArgsApply st₁, none)

/-! ## ConnectionFilterArgInjector
(`GraphQLObjectType_fields_field_args` hook) -/

/-- Modelled from the spec: the host capability resolver
`matches(declaredCapabilities, capabilityName, defaultPolicy)`. The
declared capabilities are modelled already resolved for the one capability
in play: `some true` for an explicit "+filter" tag, `some false` for an
explicit "-filter" tag, `none` when the source declares neither, in which
case the default policy decides. -/
def behaviorMatches (declaredFilterTag : Option Bool) (defaultAllows : Bool) :
    Bool :=
  declaredFilterTag.getD defaultAllows

/-- The `pgSource` the hook inspects: whether it accepts call parameters
(`source.parameters`), its declared behavior resolved for the "filter"
capability, and its row codec. -/
structure SourceRec : Type where
  hasParameters : Bool
  filterTag : Option Bool
  codec : Codec

/-- The hook's scope: field shape flags and the backing source. -/
structure InjectorScope : Type where
  isPgFieldConnection : Bool
  isPgFieldSimpleCollection : Bool
  source : Option SourceRec

/-- The `GraphQLObjectType_fields_field_args` hook from the source: on a
connection or simple-collection field backed by a source, compute the
default behavior (`"-filter"` for a parameterized source unless
`connectionFilterSetofFunctions`, else `"filter"`), run the capability
check, resolve the row codec's output type and its filter input type, and
extend the args with a `filter` argument; every failed check returns the
args unchanged. Arguments are modelled as (name, type-name) pairs. -/
def graphQLObjectTypeFieldsFieldArgs (b : BuildEnv) (scope : InjectorScope)
    (args : List (String × String)) : List (String × String) :=
  if !(scope.isPgFieldConnection || scope.isPgFieldSimpleCollection) then args
  else
    match scope.source with
    | none => args
    | some source =>
      let defaultBehaviorAllows : Bool :=
        if source.hasParameters && !b.setofFunctionsEnabled then false else true
      if !behaviorMatches source.filterTag defaultBehaviorAllows then args
      else
        match b.typeNameOutput source.codec with
        | none => args
        | some nodeTypeName =>
          let filterTypeName := b.filterType nodeTypeName
          if !b.typeIsRegistered filterTypeName then args
          else args ++ [("filter", filterTypeName)]

/-! ## Concrete sample catalog and environments -/

/-- A plain scalar codec whose resolved representation name is `Int`. -/
def intCodec : Codec :=
  .mk "Int" false false false false false false false none none none

/-- A range codec over `intCodec`. -/
def intRangeCodec : Codec :=
  .mk "IntRange" false false false false false false false none (some intCodec) none

/-- An array-of-range codec: `arrayOf (rangeOf intCodec)`. -/
def intRangeArrayCodec : Codec :=
  .mk "IntRangeList" false false false false false false false
    (some intRangeCodec) none none

/-- A plain scalar codec whose resolved representation name is `BigInt`. -/
def int8Codec : Codec :=
  .mk "BigInt" false false false false false false false none none none

/-- A domain codec over `intCodec`. -/
def intDomainA : Codec :=
  .mk "intDomainA" false false false false false false false none none (some intCodec)

/-- A domain codec over `int8Codec`. -/
def intDomainB : Codec :=
  .mk "intDomainB" false false false false false false false none none (some int8Codec)

/-- A build environment resolving every codec to its own name, with every
type registered, arrays enabled, and procedure filtering disabled. -/
def sampleEnv : BuildEnv :=
  { typeNameOutput := fun c => some c.name
    typeNameInput := fun c => some c.name
    typeMetaExists := fun _ => true
    typeIsRegistered := fun _ => true
    filterFieldType := fun n => n ++ "Filter"
    filterFieldListType := fun n => n ++ "ListFilter"
    filterType := fun n => n ++ "Filter"
    allowedFieldTypes := none
    arraysEnabled := true
    setofFunctionsEnabled := false }

/-- `sampleEnv` with `connectionFilterSetofFunctions` enabled. -/
def setofEnv : BuildEnv :=
  { sampleEnv with setofFunctionsEnabled := true }

/-- A build environment in which the two domain codecs resolve to the same
representation name `Int` (so they digest to one `operatorsTypeName`) while
their bases resolve to `Int` and `BigInt` respectively. -/
def domEnv : BuildEnv :=
  { sampleEnv with
    typeNameOutput := fun c =>
      if c.name = "intDomainA" || c.name = "intDomainB" then some "Int"
      else some c.name
    typeNameInput := fun c =>
      if c.name = "intDomainA" || c.name = "intDomainB" then some "Int"
      else some c.name }

/-- The digest `domEnv` assigns to `intDomainA`. -/
def digestA : Digest :=
  { isList := false
    operatorsTypeName := "IntFilter"
    relatedTypeName := "Int"
    inputTypeName := "Int"
    rangeElementInputTypeName := none
    domainBaseTypeName := some "Int" }

/-- The digest `domEnv` assigns to `intDomainB`: it agrees with `digestA`
on the four checked attributes and differs on `domainBaseTypeName`. -/
def digestB : Digest :=
  { isList := false
    operatorsTypeName := "IntFilter"
    relatedTypeName := "Int"
    inputTypeName := "Int"
    rangeElementInputTypeName := none
    domainBaseTypeName := some "BigInt" }

/-- A digest sharing `operatorsTypeName` with `digestA` but disagreeing on
the checked attribute `isList`. -/
def digestBadIsList : Digest :=
  { digestA with isList := true }

/-- The registry bucket created by `digestA` for `intDomainA`. -/
def groupA : FilterGroup :=
  { isList := false
    relatedTypeName := "Int"
    pgCodecs := [intDomainA]
    inputTypeName := "Int"
    rangeElementInputTypeName := none
    domainBaseTypeName := some "Int" }

/-- A one-bucket registry state holding `groupA` under `IntFilter`. -/
def registryA : List (String × FilterGroup) := [("IntFilter", groupA)]

/-- A sample text column and its column spec. -/
def textCodec : Codec :=
  .mk "String" false false false false false false true none none none

def sampleColumn : Column := ⟨textCodec⟩

def sampleColSpec : ColSpec := ⟨"name", sampleColumn⟩

/-- A fresh PredicateTarget: empty metadata slot, no delegations yet. -/
def freshWhere : WhereState := ⟨none, []⟩

/-- A raw argument value that is a structurally empty object: it exposes
`evalIsEmpty` (returning `true`) and is not the literal null. -/
def emptyObjectRaw : RawArg := ⟨true, true, false⟩

/-- A raw argument value that is the literal null: `evalIs(null)` returns
`true` and `evalIsEmpty` (exposed) returns `false`. -/
def nullLiteralRaw : RawArg := ⟨true, false, true⟩

/-! ## Helper lemmas -/

/-- `sub` occurs verbatim inside `msg`. -/
def containsSub (msg sub : String) : Prop :=
  ∃ pre post, msg = pre ++ (sub ++ post)

theorem joinComma_cons (x : String) (xs : List String) :
    ∃ t, joinComma (x :: xs) = x ++ t := by
  cases xs with
  | nil => exact ⟨"", by simp [joinComma]⟩
  | cons y ys =>
      exact ⟨", " ++ joinComma (y :: ys), by simp [joinComma, String.append_assoc]⟩

/-- The mismatch message contains the new codec's name, any prefix of the
joined member-name list, the attribute key, and both conflicting values. -/
theorem mismatchMessage_contains (k o n v p t : String) :
    containsSub (mismatchMessage k (p ++ t) o n v) n ∧
    containsSub (mismatchMessage k (p ++ t) o n v) p ∧
    containsSub (mismatchMessage k (p ++ t) o n v) k ∧
    containsSub (mismatchMessage k (p ++ t) o n v) o ∧
    containsSub (mismatchMessage k (p ++ t) o n v) v := by
  refine ⟨⟨k ++ " mismatch: existing codecs (" ++ p ++ t ++ ") had " ++ k ++
      " = " ++ o ++ ", but ", " instead has " ++ k ++ " = " ++ v, ?_⟩,
    ⟨k ++ " mismatch: existing codecs (", t ++ ") had " ++ k ++ " = " ++ o ++
      ", but " ++ n ++ " instead has " ++ k ++ " = " ++ v, ?_⟩,
    ⟨k ++ " mismatch: existing codecs (" ++ p ++ t ++ ") had ",
      " = " ++ o ++ ", but " ++ n ++ " instead has " ++ k ++ " = " ++ v, ?_⟩,
    ⟨k ++ " mismatch: existing codecs (" ++ p ++ t ++ ") had " ++ k ++ " = ",
      ", but " ++ n ++ " instead has " ++ k ++ " = " ++ v, ?_⟩,
    ⟨k ++ " mismatch: existing codecs (" ++ p ++ t ++ ") had " ++ k ++
      " = " ++ o ++ ", but " ++ n ++ " instead has " ++ k ++ " = ", "", ?_⟩⟩ <;>
    simp [mismatchMessage, String.append_assoc]

theorem lookupGroup_setGroup (m : List (String × FilterGroup)) (k : String)
    (g : FilterGroup) : lookupGroup (setGroup m k g) k = some g := by
  induction m with
  | nil => simp [setGroup, lookupGroup]
  | cons hd tl ih =>
    by_cases h : hd.1 = k
    · simp [setGroup, lookupGroup, h]
    · simp [setGroup, lookupGroup, h, ih]

/-- Formalisation of the claim's wording for `escapeLikeWildcards`: every
occurrence of `%` becomes `\%` and every occurrence of `_` becomes `\_`,
in one simultaneous character-by-character pass. -/
def specEscapeChars : List Char → List Char
  | [] => []
  | c :: cs =>
      (if c = '%' then ['\\', '%']
       else if c = '_' then ['\\', '_']
       else [c]) ++ specEscapeChars cs

theorem splitJoin_comp (l : List Char) :
    splitJoin '_' ['\\', '_'] (splitJoin '%' ['\\', '%'] l) = specEscapeChars l := by
  induction l with
  | nil => rfl
  | cons c cs ih =>
    by_cases h1 : c = '%'
    · subst h1; simp [splitJoin, specEscapeChars, ih]
    · by_cases h2 : c = '_'
      · subst h2; simp [splitJoin, specEscapeChars, ih]
      · simp [splitJoin, specEscapeChars, h1, h2, ih]

/-! ## Theorems for the claims -/

/-- C8: `escapeLikeWildcards` returns, for every string input, the input
with every `%` replaced by `\%` and every `_` replaced by `\_`, and throws
(never returns) for every non-string input. -/
theorem escapeLikeWildcards_replaces_wildcards :
    (∀ s : String, escapeLikeWildcards (.str s) = .ok ⟨specEscapeChars s.data⟩) ∧
    (∀ tag : String, escapeLikeWildcards (.nonString tag) =
      .error "Non-string input was provided to escapeLikeWildcards") := by
  constructor
  · intro s
    simp [escapeLikeWildcards, splitJoin_comp]
  · intro tag
    rfl

/-- C3: with `allowEmptyObjectInput = false` a structurally empty argument
fails with the `EmptyFilterObject` error; otherwise with
`allowNullInput = false` a literal-null argument fails with the
`NullFilterLiteral` error; with the respective flag `true` the same inputs
proceed with no error. -/
theorem apply_protocol_null_empty_guards (aE aN : Bool) (col : ColSpec)
    (st : WhereState) :
    applyPlan false aN col emptyObjectRaw st = (st, some emptyFilterObjectError) ∧
    applyPlan aE false col nullLiteralRaw st = (st, some nullFilterLiteralError) ∧
    (applyPlan true aN col emptyObjectRaw st).2 = none ∧
    (applyPlan aE true col nullLiteralRaw st).2 = none := by
  cases aE <;> cases aN <;> exact ⟨rfl, rfl, rfl, rfl⟩

/-- C4: the two validation errors of the apply protocol are thrown without
the safe-to-surface marker — the source assigns an empty extension object
to the fresh `Error` (the marking is only a TODO comment), contradicting
the documented intent that they be marked safe. -/
theorem validation_errors_lack_safe_marker :
    emptyFilterObjectError.isSafeToSurface = false ∧
    nullFilterLiteralError.isSafeToSurface = false ∧
    applyPlan false true sampleColSpec emptyObjectRaw freshWhere =
      (freshWhere, some emptyFilterObjectError) ∧
    applyPlan true false sampleColSpec nullLiteralRaw freshWhere =
      (freshWhere, some nullFilterLiteralError) :=
  ⟨rfl, rfl, rfl, rfl⟩

/-- C5: whenever the apply protocol throws one of the two validation
errors, the PredicateTarget is returned completely unmutated — the error
precedes both the metadata-slot assignment and the delegation. -/
theorem validation_failure_leaves_target_unmutated (aE aN : Bool)
    (col : ColSpec) (raw : RawArg) (st : WhereState) (e : ThrownError)
    (h : (applyPlan aE aN col raw st).2 = some e) :
    (applyPlan aE aN col raw st).1 = st := by
  by_cases h1 : (!aE && raw.hasEvalIsEmpty && raw.evalIsEmpty) = true
  · simp [applyPlan, h1]
  · by_cases h2 : (!aN && raw.evalIsNull) = true
    · simp [applyPlan, h1, h2]
    · exfalso
      simp [applyPlan, h1, h2] at h

theorem validation_failure_leaves_target_unmutated_witness :
    (applyPlan false true sampleColSpec emptyObjectRaw freshWhere).2 =
      some emptyFilterObjectError ∧
    (applyPlan false true sampleColSpec emptyObjectRaw freshWhere).1 =
      freshWhere :=
  ⟨rfl, validation_failure_leaves_target_unmutated false true sampleColSpec
    emptyObjectRaw freshWhere emptyFilterObjectError rfl⟩

/-- C6: on every successful invocation (no error), the protocol is exactly
"set the metadata slot to the column spec, then delegate": the
PredicateTarget handed to `fieldArgs.apply` already carries the column
identity, so the delegation trace records the column spec. -/
theorem column_identity_set_before_delegation (aE aN : Bool) (col : ColSpec)
    (raw : RawArg) (st : WhereState)
    (h : (applyPlan aE aN col raw st).2 = none) :
    applyPlan aE aN col raw st =
      (fieldArgsApply { st with pgFilterColumn := some col }, none) ∧
    (applyPlan aE aN col raw st).1.pgFilterColumn = some col ∧
    (applyPlan aE aN col raw st).1.appliedWith =
      st.appliedWith ++ [some col] := by
  by_cases h1 : (!aE && raw.hasEvalIsEmpty && raw.evalIsEmpty) = true
  · exfalso; simp [applyPlan, h1] at h
  · by_cases h2 : (!aN && raw.evalIsNull) = true
    · exfalso; simp [applyPlan, h1, h2] at h
    · refine ⟨?_, ?_, ?_⟩ <;> simp [applyPlan, h1, h2, fieldArgsApply]

theorem column_identity_set_before_delegation_witness :
    applyPlan true true sampleColSpec emptyObjectRaw freshWhere =
      (fieldArgsApply { freshWhere with pgFilterColumn := some sampleColSpec },
        none) ∧
    (applyPlan true true sampleColSpec emptyObjectRaw freshWhere).1.pgFilterColumn =
      some sampleColSpec ∧
    (applyPlan true true sampleColSpec emptyObjectRaw freshWhere).1.appliedWith =
      freshWhere.appliedWith ++ [some sampleColSpec] :=
  column_identity_set_before_delegation true true sampleColSpec emptyObjectRaw
    freshWhere rfl

/-- C9: when the raw argument value does not expose an `evalIsEmpty`
member, the empty-object check is skipped entirely: even with
`allowEmptyObjectInput = false` and the value structurally empty, the
outcome is decided solely by the null-literal check — the result is either
the null-literal error or a clean success, never the empty-object error. -/
theorem empty_check_requires_evalIsEmpty_member (aN : Bool) (col : ColSpec)
    (st : WhereState) (isEmpty isNull : Bool) :
    applyPlan false aN col ⟨false, isEmpty, isNull⟩ st =
      (if !aN && isNull then (st, some nullFilterLiteralError)
       else (fieldArgsApply { st with pgFilterColumn := some col }, none)) ∧
    ((applyPlan false aN col ⟨false, isEmpty, isNull⟩ st).2 = none ∨
      (applyPlan false aN col ⟨false, isEmpty, isNull⟩ st).2 =
        some nullFilterLiteralError) := by
  cases aN <;> cases isEmpty <;> cases isNull <;>
    first
    | exact ⟨rfl, Or.inl rfl⟩
    | exact ⟨rfl, Or.inr rfl⟩

/-- C1 (code bug): `isSuitableForFiltering` rejects every codec whose
`arrayOfCodec` is set, so an array-wrapped codec — in particular an
array-of-range — never reaches the category computation at all: the
classifier returns "not filterable" instead of category `Array`, even with
arrays enabled, leaving the `Array` branch of
`pgConnectionFilterOperatorsCategory` unreachable. -/
theorem arrayWrapped_codec_never_classified :
    (∀ (b : BuildEnv) (nm : String) (v c a p e j s : Bool) (ac : Codec)
      (rng dom : Option Codec),
      connectionFilterOperatorsDigest b
        (.mk nm v c a p e j s (some ac) rng dom) = none) ∧
    connectionFilterOperatorsDigest sampleEnv intRangeArrayCodec = none ∧
    connectionFilterOperatorsDigest sampleEnv intRangeCodec =
      some
        { isList := false
          operatorsTypeName := "IntRangeFilter"
          relatedTypeName := "IntRange"
          inputTypeName := "IntRange"
          rangeElementInputTypeName := some "Int"
          domainBaseTypeName := none } := by
  refine ⟨?_, rfl, rfl⟩
  intro b nm v c a p e j s ac rng dom
  have hs : isSuitableForFiltering (.mk nm v c a p e j s (some ac) rng dom) =
      false := by
    rw [isSuitableForFiltering.eq_def]
    simp
  simp [connectionFilterOperatorsDigest, hs]

/-- C7: the arg injector's default filterability. A procedure-backed source
(accepting call parameters) gets no `filter` argument unless
`connectionFilterSetofFunctions` is enabled or it carries an explicit
`+filter` behavior; a plain row-set source gets one unless it carries an
explicit `-filter` behavior; a failed capability check returns the
argument set unchanged. -/
theorem arg_injector_default_filterability (b : BuildEnv) (conn simple : Bool)
    (src : SourceRec) (args : List (String × String)) (nm : String)
    (hcs : (conn || simple) = true) :
    (src.hasParameters = true → b.setofFunctionsEnabled = false →
      src.filterTag = none →
      graphQLObjectTypeFieldsFieldArgs b ⟨conn, simple, some src⟩ args = args) ∧
    (src.hasParameters = true → b.setofFunctionsEnabled = true →
      src.filterTag = none →
      b.typeNameOutput src.codec = some nm →
      b.typeIsRegistered (b.filterType nm) = true →
      graphQLObjectTypeFieldsFieldArgs b ⟨conn, simple, some src⟩ args =
        args ++ [("filter", b.filterType nm)]) ∧
    (src.filterTag = some true →
      b.typeNameOutput src.codec = some nm →
      b.typeIsRegistered (b.filterType nm) = true →
      graphQLObjectTypeFieldsFieldArgs b ⟨conn, simple, some src⟩ args =
        args ++ [("filter", b.filterType nm)]) ∧
    (src.hasParameters = false → src.filterTag = none →
      b.typeNameOutput src.codec = some nm →
      b.typeIsRegistered (b.filterType nm) = true →
      graphQLObjectTypeFieldsFieldArgs b ⟨conn, simple, some src⟩ args =
        args ++ [("filter", b.filterType nm)]) ∧
    (src.filterTag = some false →
      graphQLObjectTypeFieldsFieldArgs b ⟨conn, simple, some src⟩ args = args) := by
  refine ⟨?_, ?_, ?_, ?_, ?_⟩
  · intro hp hs ht
    simp [graphQLObjectTypeFieldsFieldArgs, hcs, hp, hs, ht, behaviorMatches]
  · intro hp hs ht hn hr
    simp [graphQLObjectTypeFieldsFieldArgs, hcs, hp, hs, ht, hn, hr,
      behaviorMatches]
  · intro ht hn hr
    simp [graphQLObjectTypeFieldsFieldArgs, hcs, ht, hn, hr, behaviorMatches]
  · intro hp ht hn hr
    simp [graphQLObjectTypeFieldsFieldArgs, hcs, hp, ht, hn, hr,
      behaviorMatches]
  · intro ht
    simp [graphQLObjectTypeFieldsFieldArgs, hcs, ht, behaviorMatches]

theorem arg_injector_default_filterability_witness :
    graphQLObjectTypeFieldsFieldArgs sampleEnv
      ⟨true, false, some ⟨true, none, intCodec⟩⟩ [] = [] ∧
    graphQLObjectTypeFieldsFieldArgs setofEnv
      ⟨true, false, some ⟨true, none, intCodec⟩⟩ [] = [("filter", "IntFilter")] ∧
    graphQLObjectTypeFieldsFieldArgs sampleEnv
      ⟨true, false, some ⟨true, some true, intCodec⟩⟩ [] =
      [("filter", "IntFilter")] ∧
    graphQLObjectTypeFieldsFieldArgs sampleEnv
      ⟨true, false, some ⟨false, none, intCodec⟩⟩ [] =
      [("filter", "IntFilter")] ∧
    graphQLObjectTypeFieldsFieldArgs sampleEnv
      ⟨true, false, some ⟨false, some false, intCodec⟩⟩ [] = [] := by
  refine ⟨?_, ?_, ?_, ?_, ?_⟩
  · exact (arg_injector_default_filterability sampleEnv true false
      ⟨true, none, intCodec⟩ [] "Int" rfl).1 rfl rfl rfl
  · simpa using (arg_injector_default_filterability setofEnv true false
      ⟨true, none, intCodec⟩ [] "Int" rfl).2.1 rfl rfl rfl rfl rfl
  · simpa using (arg_injector_default_filterability sampleEnv true false
      ⟨true, some true, intCodec⟩ [] "Int" rfl).2.2.1 rfl rfl rfl
  · simpa using (arg_injector_default_filterability sampleEnv true false
      ⟨false, none, intCodec⟩ [] "Int" rfl).2.2.2.1 rfl rfl rfl rfl
  · exact (arg_injector_default_filterability sampleEnv true false
      ⟨false, some false, intCodec⟩ [] "Int" rfl).2.2.2.2 rfl

/-- C2: inserting a digest into an existing bucket fails with an error
whose message names the new codec, an existing member codec, the mismatched
checked attribute, and both conflicting values, whenever any of the four
checked attributes disagrees with the representative; and succeeds by
appending the codec to the bucket whenever all four agree —
`domainBaseTypeName` is quantified independently on both sides and is
never compared. -/
theorem registry_consistency_check (m : List (String × FilterGroup))
    (codec : Codec) (d : Digest) (g : FilterGroup) (c₀ : Codec)
    (cs : List Codec) (hl : lookupGroup m d.operatorsTypeName = some g)
    (hm : g.pgCodecs = c₀ :: cs) :
    ((d.isList ≠ g.isList ∨ d.relatedTypeName ≠ g.relatedTypeName ∨
        d.inputTypeName ≠ g.inputTypeName ∨
        d.rangeElementInputTypeName ≠ g.rangeElementInputTypeName) →
      ∃ key oldVal newVal,
        registryInsert m codec d =
          .error (mismatchMessage key (joinComma (g.pgCodecs.map Codec.name))
            oldVal codec.name newVal) ∧
        ((key = "isList" ∧ d.isList ≠ g.isList ∧
            oldVal = showBoolVal g.isList ∧ newVal = showBoolVal d.isList) ∨
         (key = "relatedTypeName" ∧ d.relatedTypeName ≠ g.relatedTypeName ∧
            oldVal = g.relatedTypeName ∧ newVal = d.relatedTypeName) ∨
         (key = "inputTypeName" ∧ d.inputTypeName ≠ g.inputTypeName ∧
            oldVal = g.inputTypeName ∧ newVal = d.inputTypeName) ∨
         (key = "rangeElementInputTypeName" ∧
            d.rangeElementInputTypeName ≠ g.rangeElementInputTypeName ∧
            oldVal = showOptVal g.rangeElementInputTypeName ∧
            newVal = showOptVal d.rangeElementInputTypeName)) ∧
        containsSub (mismatchMessage key
          (joinComma (g.pgCodecs.map Codec.name)) oldVal codec.name newVal)
          codec.name ∧
        containsSub (mismatchMessage key
          (joinComma (g.pgCodecs.map Codec.name)) oldVal codec.name newVal)
          c₀.name ∧
        containsSub (mismatchMessage key
          (joinComma (g.pgCodecs.map Codec.name)) oldVal codec.name newVal)
          key ∧
        containsSub (mismatchMessage key
          (joinComma (g.pgCodecs.map Codec.name)) oldVal codec.name newVal)
          oldVal ∧
        containsSub (mismatchMessage key
          (joinComma (g.pgCodecs.map Codec.name)) oldVal codec.name newVal)
          newVal) ∧
    ((d.isList = g.isList ∧ d.relatedTypeName = g.relatedTypeName ∧
        d.inputTypeName = g.inputTypeName ∧
        d.rangeElementInputTypeName = g.rangeElementInputTypeName) →
      registryInsert m codec d =
        .ok (setGroup m d.operatorsTypeName
          { g with pgCodecs := g.pgCodecs ++ [codec] })) := by
  obtain ⟨t, ht⟩ : ∃ t, joinComma (g.pgCodecs.map Codec.name) = c₀.name ++ t := by
    rw [hm]
    simpa using joinComma_cons c₀.name (cs.map Codec.name)
  constructor
  · intro hOr
    by_cases h1 : d.isList = g.isList
    · by_cases h2 : d.relatedTypeName = g.relatedTypeName
      · by_cases h3 : d.inputTypeName = g.inputTypeName
        · by_cases h4 : d.rangeElementInputTypeName = g.rangeElementInputTypeName
          · exact absurd hOr (by simp [h1, h2, h3, h4])
          · obtain ⟨cn, cp, ck, co, cv⟩ := mismatchMessage_contains
              "rangeElementInputTypeName"
              (showOptVal g.rangeElementInputTypeName) codec.name
              (showOptVal d.rangeElementInputTypeName) c₀.name t
            refine ⟨"rangeElementInputTypeName",
              showOptVal g.rangeElementInputTypeName,
              showOptVal d.rangeElementInputTypeName, ?_,
              Or.inr (Or.inr (Or.inr ⟨rfl, h4, rfl, rfl⟩)),
              ?_, ?_, ?_, ?_, ?_⟩
            · unfold registryInsert
              rw [hl]
              simp [h1, h2, h3, h4]
            · rw [ht]; exact cn
            · rw [ht]; exact cp
            · rw [ht]; exact ck
            · rw [ht]; exact co
            · rw [ht]; exact cv
        · obtain ⟨cn, cp, ck, co, cv⟩ := mismatchMessage_contains
            "inputTypeName" g.inputTypeName codec.name d.inputTypeName c₀.name t
          refine ⟨"inputTypeName", g.inputTypeName, d.inputTypeName, ?_,
            Or.inr (Or.inr (Or.inl ⟨rfl, h3, rfl, rfl⟩)), ?_, ?_, ?_, ?_, ?_⟩
          · unfold registryInsert
            rw [hl]
            simp [h1, h2, h3]
          · rw [ht]; exact cn
          · rw [ht]; exact cp
          · rw [ht]; exact ck
          · rw [ht]; exact co
          · rw [ht]; exact cv
      · obtain ⟨cn, cp, ck, co, cv⟩ := mismatchMessage_contains
          "relatedTypeName" g.relatedTypeName codec.name d.relatedTypeName
          c₀.name t
        refine ⟨"relatedTypeName", g.relatedTypeName, d.relatedTypeName, ?_,
          Or.inr (Or.inl ⟨rfl, h2, rfl, rfl⟩), ?_, ?_, ?_, ?_, ?_⟩
        · unfold registryInsert
          rw [hl]
          simp [h1, h2]
        · rw [ht]; exact cn
        · rw [ht]; exact cp
        · rw [ht]; exact ck
        · rw [ht]; exact co
        · rw [ht]; exact cv
    · obtain ⟨cn, cp, ck, co, cv⟩ := mismatchMessage_contains
        "isList" (showBoolVal g.isList) codec.name (showBoolVal d.isList)
        c₀.name t
      refine ⟨"isList", showBoolVal g.isList, showBoolVal d.isList, ?_,
        Or.inl ⟨rfl, h1, rfl, rfl⟩, ?_, ?_, ?_, ?_, ?_⟩
      · unfold registryInsert
        rw [hl]
        simp [h1]
      · rw [ht]; exact cn
      · rw [ht]; exact cp
      · rw [ht]; exact ck
      · rw [ht]; exact co
      · rw [ht]; exact cv
  · rintro ⟨e1, e2, e3, e4⟩
    unfold registryInsert
    rw [hl]
    simp [e1, e2, e3, e4]

theorem registry_consistency_check_witness :
    (∃ key oldVal newVal,
      registryInsert registryA intDomainB digestBadIsList =
        .error (mismatchMessage key
          (joinComma (groupA.pgCodecs.map Codec.name)) oldVal
          intDomainB.name newVal)) ∧
    registryInsert registryA intDomainB digestB =
      .ok (setGroup registryA "IntFilter"
        { groupA with pgCodecs := groupA.pgCodecs ++ [intDomainB] }) := by
  constructor
  · obtain ⟨key, oldVal, newVal, hres, -, -, -, -, -, -⟩ :=
      (registry_consistency_check registryA intDomainB digestBadIsList groupA
        intDomainA [] rfl rfl).1 (Or.inl (by decide))
    exact ⟨key, oldVal, newVal, hres⟩
  · exact (registry_consistency_check registryA intDomainB digestB groupA
      intDomainA [] rfl rfl).2 ⟨rfl, rfl, rfl, rfl⟩

/-- The registry state after `intDomainB` joins `registryA`. -/
def registryAB : List (String × FilterGroup) :=
  [("IntFilter", { groupA with pgCodecs := [intDomainA, intDomainB] })]

/-- C10: a successful insertion into an existing bucket only appends to the
member list — the representative attributes, `domainBaseTypeName` included,
are exactly those of the first digest inserted under the
`operatorsTypeName` and are never overwritten; consequently the registered
operator input type's domain-base tag depends on the enumeration order:
running the registry pass over the two domain codecs in the two orders
registers `IntFilter` with domain-base tag `Int` in one order and `BigInt`
in the other. -/
theorem operator_group_keeps_first_digest :
    (∀ (m : List (String × FilterGroup)) (codec : Codec) (d : Digest)
      (g : FilterGroup) (m' : List (String × FilterGroup)),
      lookupGroup m d.operatorsTypeName = some g →
      registryInsert m codec d = .ok m' →
      lookupGroup m' d.operatorsTypeName =
        some { g with pgCodecs := g.pgCodecs ++ [codec] }) ∧
    ((codecsByFilterTypeName domEnv [intDomainA, intDomainB]).map
        (fun m => (registerOperatorTypes m).map
          (fun r => (r.typeName, r.domainBaseTypeName))) =
      .ok [("IntFilter", some "Int")]) ∧
    ((codecsByFilterTypeName domEnv [intDomainB, intDomainA]).map
        (fun m => (registerOperatorTypes m).map
          (fun r => (r.typeName, r.domainBaseTypeName))) =
      .ok [("IntFilter", some "BigInt")]) := by
  refine ⟨?_, rfl, rfl⟩
  intro m codec d g m' hl hok
  unfold registryInsert at hok
  rw [hl] at hok
  by_cases h1 : d.isList = g.isList
  · by_cases h2 : d.relatedTypeName = g.relatedTypeName
    · by_cases h3 : d.inputTypeName = g.inputTypeName
      · by_cases h4 : d.rangeElementInputTypeName = g.rangeElementInputTypeName
        · simp [h1, h2, h3, h4] at hok
          rw [← hok]
          exact lookupGroup_setGroup m d.operatorsTypeName _
        · simp [h1, h2, h3, h4] at hok
      · simp [h1, h2, h3] at hok
    · simp [h1, h2] at hok
  · simp [h1] at hok

theorem operator_group_keeps_first_digest_witness :
    lookupGroup registryAB "IntFilter" =
      some { groupA with pgCodecs := groupA.pgCodecs ++ [intDomainB] } :=
  operator_group_keeps_first_digest.1 registryA intDomainB digestB groupA
    registryAB rfl rfl

end ConnFilter
